import Mathlib

/-!
Shallow embedding of `net/sched/sch_tbs.c` (the Time-Based Scheduler qdisc)
and proofs about its time-ordered release engine.

Modelling conventions:
* `ktime_t` values are mathematical integers (nanoseconds).  The s64/s32
  arithmetic in the source (`ktime_before`, `ktime_after`, `ktime_sub_ns`)
  never relies on wraparound in the scheduler logic, so no modular reduction
  is applied.
* The rbtree rooted at `q->head` is embedded as a plain binary search tree
  with the exact comparison of `tbs_enqueue_timesortedlist` (descend right
  iff `ktime_after(txtime, skb->tstamp)`, i.e. strictly greater; ties go
  left).  Red-black rebalancing rotations preserve both the search-tree
  property and the in-order traversal, and the code observes the tree only
  through `rb_first`, `rb_erase` of the first node, and in-order clearing,
  so the unbalanced tree has the same observable behaviour.
* The qdisc watchdog is embedded as `Option Int`: `some t` means a wake is
  scheduled at time `t` (`qdisc_watchdog_schedule_ns` overwrites it), `none`
  means no wake is outstanding (`qdisc_watchdog_cancel`, or never armed).
* The function pointers `q->enqueue`, `q->dequeue`, `q->peek`, `q->get_time`
  can only ever hold NULL or the single timesortedlist / clock function the
  code assigns, so each is embedded as a `Bool` recording whether it was set;
  the dispatching wrappers (`tbs_enqueue`, `tbs_dequeue`, `tbs_peek`) return
  `none` when the pointer they would call is unset (a NULL dereference in C:
  no defined result).
* `q->get_time()` readings are passed to each operation as an explicit `now`
  argument (the clock is an external collaborator).
* Netlink parsing, statistics counters (qlen/backlog/bstats), and the device
  queue index are out of scope per the spec and are not represented.
-/

/-- The fields of `struct sock` consulted by `is_packet_valid`:
the `SOCK_TXTIME` flag, `sk_clockid`, and the deadline bit of
`sk_txtime_flags` (`sk_txtime_flags & SK_TXTIME_DEADLINE_MASK`). -/
structure Sock where
  sock_txtime : Bool
  sk_clockid : Int
  txtime_deadline : Bool
deriving DecidableEq

/-- The fields of `struct sk_buff` the scheduler uses: `tstamp` (the txtime)
and the owning socket (`sk`, possibly NULL).  `skbId` is an identity tag so
that distinct packets with equal metadata can be told apart in statements;
it plays no role in any embedded function. -/
structure SkBuff where
  tstamp : Int
  sk : Option Sock
  skbId : Nat
deriving DecidableEq

/-- The rbtree rooted at `q->head`, as a plain binary tree. -/
inductive SkbTree where
  | nil : SkbTree
  | node (l : SkbTree) (skb : SkBuff) (r : SkbTree) : SkbTree
deriving DecidableEq

/-- In-order traversal of the tree (ascending txtime). -/
def SkbTree.toList : SkbTree → List SkBuff
  | .nil => []
  | .node l skb r => l.toList ++ skb :: r.toList

/-- `rb_first`: the leftmost node of the tree, if any. -/
def SkbTree.first : SkbTree → Option SkBuff
  | .nil => none
  | .node .nil skb _ => some skb
  | .node (.node a b c) _ _ => SkbTree.first (.node a b c)

/-- `rb_erase` applied to the node returned by `rb_first` (the only erasure
the dequeue path performs): remove the leftmost node. -/
def SkbTree.eraseFirst : SkbTree → SkbTree
  | .nil => .nil
  | .node .nil _ r => r
  | .node (.node a b c) skb r => .node (SkbTree.eraseFirst (.node a b c)) skb r

/-- The insertion loop of `tbs_enqueue_timesortedlist`: descend right iff
`ktime_after(txtime, skb->tstamp)` (strictly greater), otherwise left, and
link the new node at the leaf position reached. -/
def SkbTree.insert (t : SkbTree) (nskb : SkBuff) : SkbTree :=
  match t with
  | .nil => .node .nil nskb .nil
  | .node l skb r =>
    if skb.tstamp < nskb.tstamp then .node l skb (r.insert nskb)
    else .node (l.insert nskb) skb r

/-- `struct tbs_sched_data`. -/
structure TbsSchedData where
  sorting : Bool
  deadline_mode : Bool
  clockid : Int
  /-- `s32 delta` in ns (the guard interval). -/
  delta : Int
  /-- `ktime_t last`: the txtime of the last skb sent to the netdevice. -/
  last : Int
  head : SkbTree
  /-- The qdisc watchdog: `some t` iff a wake is scheduled at `t`. -/
  watchdog : Option Int
  /-- Whether `q->enqueue` was assigned (NULL otherwise). -/
  enqueue_set : Bool
  /-- Whether `q->dequeue` was assigned (NULL otherwise). -/
  dequeue_set : Bool
  /-- Whether `q->peek` was assigned (NULL otherwise). -/
  peek_set : Bool
  /-- Whether `q->get_time` was assigned (NULL otherwise). -/
  get_time_set : Bool
deriving DecidableEq

/-- `struct tc_tbs_qopt` as far as the scheduler reads it: `delta`,
`clockid`, and the two flag bits `TC_TBS_SORTING_ON` and
`TC_TBS_DEADLINE_MODE_ON`. -/
structure TcTbsQopt where
  delta : Int
  clockid : Int
  sorting_on : Bool
  deadline_mode_on : Bool
deriving DecidableEq

def EINVAL : Int := 22

def ENOTSUPP : Int := 524

def MAX_CLOCKS : Int := 16

def CLOCK_REALTIME : Int := 0

def CLOCK_MONOTONIC : Int := 1

def CLOCK_BOOTTIME : Int := 7

def CLOCK_TAI : Int := 11

/-- `validate_input_params`: returns 0 on success, a negative errno
otherwise. -/
def validate_input_params (qopt : TcTbsQopt) : Int :=
  if MAX_CLOCKS ≤ qopt.clockid then -EINVAL
  else if qopt.clockid < 0 then -ENOTSUPP
  else if qopt.delta < 0 then -EINVAL
  else 0

/-- `is_packet_valid`: the admission validator.  `now` is the value
`q->get_time()` returns during the call. -/
def is_packet_valid (q : TbsSchedData) (now : Int) (nskb : SkBuff) : Bool :=
  match nskb.sk with
  | none => false
  | some sk =>
    if !sk.sock_txtime then false
    else if sk.sk_clockid != q.clockid then false
    else if sk.txtime_deadline != q.deadline_mode then false
    else if nskb.tstamp < now || nskb.tstamp < q.last then false
    else true

/-- `tbs_peek_timesortedlist`: `rb_first` of the tree. -/
def tbs_peek_timesortedlist (q : TbsSchedData) : Option SkBuff :=
  q.head.first

/-- `reset_watchdog`: peek the head; if there is none, return (leaving any
outstanding wake untouched); otherwise schedule the watchdog for
`ktime_sub_ns(skb->tstamp, q->delta)`.  (`tbs_peek` dispatches to
`tbs_peek_timesortedlist`; `reset_watchdog` is reached only from the
timesortedlist paths, where that pointer is set.) -/
def reset_watchdog (q : TbsSchedData) : TbsSchedData :=
  match tbs_peek_timesortedlist q with
  | none => q
  | some skb => { q with watchdog := some (skb.tstamp - q.delta) }

/-- `tbs_enqueue_timesortedlist`: insert into the tree, then re-arm the
watchdog for the (possibly new) head.  Statistics updates are out of
scope. -/
def tbs_enqueue_timesortedlist (q : TbsSchedData) (nskb : SkBuff) : TbsSchedData :=
  reset_watchdog { q with head := q.head.insert nskb }

/-- `timesortedlist_erase` specialised to the node returned by `rb_first`
(the only node the dequeue path ever erases): remove the leftmost node;
on a non-drop erase record `q->last = skb->tstamp` (the skb's txtime at
erase time).  The drop path's `qdisc_drop`/overlimit accounting is out of
scope. -/
def timesortedlist_erase_head (q : TbsSchedData) (skb : SkBuff) (drop : Bool) :
    TbsSchedData :=
  let q1 := { q with head := q.head.eraseFirst }
  if drop then q1 else { q1 with last := skb.tstamp }

/-- `tbs_dequeue_timesortedlist`: the dequeue state machine.  Returns the
released packet (or `none`) and the post-state.  `now` is the value
`q->get_time()` returns during the call. -/
def tbs_dequeue_timesortedlist (q : TbsSchedData) (now : Int) :
    Option SkBuff × TbsSchedData :=
  match tbs_peek_timesortedlist q with
  | none => (none, q)
  | some skb =>
    if skb.tstamp < now then
      -- Drop if packet has expired while in queue.
      (none, reset_watchdog (timesortedlist_erase_head q skb true))
    else if q.deadline_mode then
      -- Dequeue as soon as possible and change the txtime to now.
      (some { skb with tstamp := now },
       reset_watchdog (timesortedlist_erase_head q skb false))
    else
      -- Dequeue only if ktime_after(now, txtime - delta).
      if skb.tstamp - q.delta < now then
        (some skb, reset_watchdog (timesortedlist_erase_head q skb false))
      else
        (none, reset_watchdog q)

/-- `setup_queueing_mode`: assign the three timesortedlist handlers iff
sorting is on; otherwise leave the pointers untouched (NULL on a freshly
allocated qdisc). -/
def setup_queueing_mode (q : TbsSchedData) : TbsSchedData :=
  if q.sorting then
    { q with enqueue_set := true, dequeue_set := true, peek_set := true }
  else q

/-- `tbs_init` from the point the parsed `tc_tbs_qopt` is in hand (netlink
parsing is out of scope): validate, save the parameters, resolve
`get_time` from the clockid (failing with `-ENOTSUPP` on a clockid the
switch does not handle — note the parameters are already saved by then),
select the queueing mode, and initialise the watchdog.  Returns the errno
(0 on success) and the state as left by the call. -/
def tbs_init (q : TbsSchedData) (qopt : TcTbsQopt) : Int × TbsSchedData :=
  if validate_input_params qopt < 0 then (validate_input_params qopt, q)
  else if qopt.clockid = CLOCK_REALTIME ∨ qopt.clockid = CLOCK_MONOTONIC ∨
      qopt.clockid = CLOCK_BOOTTIME ∨ qopt.clockid = CLOCK_TAI then
    (0, { (setup_queueing_mode
            { q with
                delta := qopt.delta, clockid := qopt.clockid,
                sorting := qopt.sorting_on,
                deadline_mode := qopt.deadline_mode_on,
                get_time_set := true }) with
          watchdog := none })
  else
    (-ENOTSUPP,
     { q with
         delta := qopt.delta, clockid := qopt.clockid,
         sorting := qopt.sorting_on,
         deadline_mode := qopt.deadline_mode_on })

/-- `tbs_enqueue`: validate, dropping invalid packets (`qdisc_drop`, defined
even when the pointers are unset), then dispatch through `q->enqueue`.
Result `some (accepted, q')` models a defined outcome; `none` models the
NULL-pointer call when `q->enqueue` was never assigned. -/
def tbs_enqueue (q : TbsSchedData) (now : Int) (nskb : SkBuff) :
    Option (Bool × TbsSchedData) :=
  if !is_packet_valid q now nskb then some (false, q)
  else if q.enqueue_set then some (true, tbs_enqueue_timesortedlist q nskb)
  else none

/-- `tbs_dequeue`: dispatch through `q->dequeue`; `none` models the
NULL-pointer call when it was never assigned. -/
def tbs_dequeue (q : TbsSchedData) (now : Int) :
    Option (Option SkBuff × TbsSchedData) :=
  if q.dequeue_set then some (tbs_dequeue_timesortedlist q now) else none

/-- `tbs_peek`: dispatch through `q->peek`; `none` models the NULL-pointer
call when it was never assigned. -/
def tbs_peek (q : TbsSchedData) : Option (Option SkBuff) :=
  if q.peek_set then some (tbs_peek_timesortedlist q) else none

/-- `tbs_reset`: cancel the watchdog, clear the tree
(`timesortedlist_clear`), and reset `q->last` to 0. -/
def tbs_reset (q : TbsSchedData) : TbsSchedData :=
  { q with watchdog := none, head := .nil, last := 0 }

/-- `tbs_destroy`: cancel the watchdog; the tree is left untouched. -/
def tbs_destroy (q : TbsSchedData) : TbsSchedData :=
  { q with watchdog := none }

/-- One externally invoked operation on a sorted-mode engine, with the
clock reading observed during the call. -/
inductive TbsOp where
  | enq (now : Int) (nskb : SkBuff)
  | poll (now : Int)
deriving DecidableEq

/-- The state transition of one operation in the sorted configuration
(where the dispatch pointers hold the timesortedlist handlers): `enq` is
`tbs_enqueue` (validator, then insert), `poll` is
`tbs_dequeue_timesortedlist`. -/
def runOp (q : TbsSchedData) : TbsOp → TbsSchedData
  | .enq now nskb =>
    if is_packet_valid q now nskb then tbs_enqueue_timesortedlist q nskb else q
  | .poll now => (tbs_dequeue_timesortedlist q now).2

/-- Run a sequence of operations. -/
def runOps (q : TbsSchedData) (ops : List TbsOp) : TbsSchedData :=
  ops.foldl runOp q

/-- Release-time ordering on packets. -/
def txle (a b : SkBuff) : Prop := a.tstamp ≤ b.tstamp

/-- Invariant maintained by the sorted-mode operations: the in-order
traversal is sorted by txtime, and every queued packet's txtime is at
least `q->last`. -/
def StoreInv (q : TbsSchedData) : Prop :=
  q.head.toList.Pairwise txle ∧ ∀ x ∈ q.head.toList, q.last ≤ x.tstamp

/-- Invariant of reachable sorted-mode states: whenever the store is
non-empty, the outstanding wake equals `head.tstamp - delta`, because
`reset_watchdog` runs after every mutation of the head. -/
def WatchdogInv (q : TbsSchedData) : Prop :=
  ∀ skb, tbs_peek_timesortedlist q = some skb →
    q.watchdog = some (skb.tstamp - q.delta)

/-- A socket opted into txtime on `CLOCK_REALTIME`, windowed mode. -/
def sockW : Sock := { sock_txtime := true, sk_clockid := 0, txtime_deadline := false }

/-- A socket opted into txtime on `CLOCK_REALTIME`, deadline mode. -/
def sockD : Sock := { sock_txtime := true, sk_clockid := 0, txtime_deadline := true }

/-- Packet with txtime 100 ns from `sockW` (identity 1). -/
def pW1 : SkBuff := { tstamp := 100, sk := some sockW, skbId := 1 }

/-- Packet with txtime 100 ns from `sockW` (identity 2). -/
def pW2 : SkBuff := { tstamp := 100, sk := some sockW, skbId := 2 }

/-- Packet with txtime 100 ns from `sockD` (identity 3). -/
def pD : SkBuff := { tstamp := 100, sk := some sockD, skbId := 3 }

/-- Packet with txtime 5 ns from `sockW` (identity 4). -/
def pC8 : SkBuff := { tstamp := 5, sk := some sockW, skbId := 4 }

/-- A freshly configured windowed-mode engine:
`tbs_init` on a zeroed qdisc with delta 10 ns, `CLOCK_REALTIME`, sorting on,
deadline mode off. -/
def qW : TbsSchedData :=
  { sorting := true, deadline_mode := false, clockid := 0, delta := 10,
    last := 0, head := .nil, watchdog := none, enqueue_set := true,
    dequeue_set := true, peek_set := true, get_time_set := true }

/-- A freshly configured deadline-mode engine (delta 10 ns,
`CLOCK_REALTIME`, sorting on). -/
def qD : TbsSchedData :=
  { sorting := true, deadline_mode := true, clockid := 0, delta := 10,
    last := 0, head := .nil, watchdog := none, enqueue_set := true,
    dequeue_set := true, peek_set := true, get_time_set := true }

/-- A windowed-mode engine whose `last` is already 10 ns. -/
def qC8 : TbsSchedData :=
  { sorting := true, deadline_mode := false, clockid := 0, delta := 10,
    last := 10, head := .nil, watchdog := none, enqueue_set := true,
    dequeue_set := true, peek_set := true, get_time_set := true }

/-- The zeroed `tbs_sched_data` of a freshly allocated qdisc, before
`tbs_init` runs. -/
def qZero : TbsSchedData :=
  { sorting := false, deadline_mode := false, clockid := 0, delta := 0,
    last := 0, head := .nil, watchdog := none, enqueue_set := false,
    dequeue_set := false, peek_set := false, get_time_set := false }

/-- A parameter set with an in-range but unhandled clockid
(`CLOCK_PROCESS_CPUTIME_ID` = 2). -/
def qoptBad : TcTbsQopt :=
  { delta := 5, clockid := 2, sorting_on := true, deadline_mode_on := false }

/-- A parameter set with sorting off and otherwise valid parameters. -/
def qoptOff : TcTbsQopt :=
  { delta := 10, clockid := 0, sorting_on := false, deadline_mode_on := false }

/-! ### Helper lemmas about the tree and the engine state -/

theorem SkbTree.toList_node_ne_nil (l : SkbTree) (skb : SkBuff) (r : SkbTree) :
    (SkbTree.node l skb r).toList ≠ [] := by
  simp [SkbTree.toList]

theorem SkbTree.mem_toList_insert (t : SkbTree) (x a : SkBuff) :
    a ∈ (t.insert x).toList ↔ a ∈ t.toList ∨ a = x := by
  induction t with
  | nil => simp [SkbTree.insert, SkbTree.toList]
  | node l skb r ihl ihr =>
    rw [SkbTree.insert]
    split
    · simp [SkbTree.toList, ihr]
      tauto
    · simp [SkbTree.toList, ihl]
      tauto

theorem SkbTree.first_eq_head (t : SkbTree) : t.first = t.toList.head? := by
  induction t with
  | nil => rfl
  | node l skb r ihl ihr =>
    cases l with
    | nil => simp [SkbTree.first, SkbTree.toList]
    | node a b c =>
      have h1 : (SkbTree.node (SkbTree.node a b c) skb r).first =
          (SkbTree.node a b c).first := rfl
      rw [h1, ihl]
      show (SkbTree.node a b c).toList.head? =
        ((SkbTree.node a b c).toList ++ skb :: r.toList).head?
      cases hl : (SkbTree.node a b c).toList with
      | nil => exact absurd hl (SkbTree.toList_node_ne_nil a b c)
      | cons y ys => rfl

theorem SkbTree.toList_eraseFirst (t : SkbTree) :
    t.eraseFirst.toList = t.toList.tail := by
  induction t with
  | nil => rfl
  | node l skb r ihl ihr =>
    cases l with
    | nil => simp [SkbTree.eraseFirst, SkbTree.toList]
    | node a b c =>
      show ((SkbTree.node a b c).eraseFirst.toList ++ skb :: r.toList) =
        ((SkbTree.node a b c).toList ++ skb :: r.toList).tail
      rw [ihl]
      cases hl : (SkbTree.node a b c).toList with
      | nil => exact absurd hl (SkbTree.toList_node_ne_nil a b c)
      | cons y ys => rfl

theorem SkbTree.pairwise_toList_insert (t : SkbTree) (x : SkBuff)
    (h : t.toList.Pairwise txle) : (t.insert x).toList.Pairwise txle := by
  induction t with
  | nil => simp [SkbTree.insert, SkbTree.toList]
  | node l skb r ihl ihr =>
    rw [SkbTree.toList, List.pairwise_append, List.pairwise_cons] at h
    obtain ⟨hl, ⟨hskbr, hr⟩, hcross⟩ := h
    rw [SkbTree.insert]
    split
    · rename_i hlt
      rw [SkbTree.toList, List.pairwise_append, List.pairwise_cons]
      refine ⟨hl, ⟨?_, ihr hr⟩, ?_⟩
      · intro b hb
        rw [SkbTree.mem_toList_insert] at hb
        rcases hb with hb | rfl
        · exact hskbr b hb
        · exact le_of_lt hlt
      · intro a ha b hb
        rcases List.mem_cons.mp hb with rfl | hb
        · exact hcross a ha b (List.mem_cons_self _ _)
        · rw [SkbTree.mem_toList_insert] at hb
          rcases hb with hb | rfl
          · exact hcross a ha b (List.mem_cons_of_mem _ hb)
          · have h1 : txle a skb := hcross a ha skb (List.mem_cons_self _ _)
            exact le_trans h1 (le_of_lt hlt)
    · rename_i hge
      rw [SkbTree.toList, List.pairwise_append, List.pairwise_cons]
      refine ⟨ihl hl, ⟨hskbr, hr⟩, ?_⟩
      intro a ha b hb
      rw [SkbTree.mem_toList_insert] at ha
      have hxskb : x.tstamp ≤ skb.tstamp := not_lt.mp hge
      rcases ha with ha | rfl
      · exact hcross a ha b hb
      · rcases List.mem_cons.mp hb with rfl | hb
        · exact hxskb
        · exact le_trans hxskb (hskbr b hb)

@[simp]
theorem reset_watchdog_head (q : TbsSchedData) :
    (reset_watchdog q).head = q.head := by
  cases h : tbs_peek_timesortedlist q <;> simp [reset_watchdog, h]

@[simp]
theorem reset_watchdog_last (q : TbsSchedData) :
    (reset_watchdog q).last = q.last := by
  cases h : tbs_peek_timesortedlist q <;> simp [reset_watchdog, h]

@[simp]
theorem reset_watchdog_delta (q : TbsSchedData) :
    (reset_watchdog q).delta = q.delta := by
  cases h : tbs_peek_timesortedlist q <;> simp [reset_watchdog, h]

@[simp]
theorem erase_head_head (q : TbsSchedData) (skb : SkBuff) (drop : Bool) :
    (timesortedlist_erase_head q skb drop).head = q.head.eraseFirst := by
  cases drop <;> rfl

@[simp]
theorem erase_head_last (q : TbsSchedData) (skb : SkBuff) (drop : Bool) :
    (timesortedlist_erase_head q skb drop).last =
      if drop then q.last else skb.tstamp := by
  cases drop <;> rfl

theorem is_packet_valid_le (q : TbsSchedData) (now : Int) (nskb : SkBuff)
    (h : is_packet_valid q now nskb = true) :
    now ≤ nskb.tstamp ∧ q.last ≤ nskb.tstamp := by
  cases hsk : nskb.sk with
  | none => simp [is_packet_valid, hsk] at h
  | some sk =>
    simp only [is_packet_valid, hsk] at h
    split at h
    · simp at h
    · split at h
      · simp at h
      · split at h
        · simp at h
        · split at h
          · simp at h
          · rename_i hcond
            simp at hcond
            exact hcond

/-! ### Characterisation of the dequeue state machine, branch by branch -/

theorem dequeue_eq_empty (q : TbsSchedData) (now : Int)
    (hpk : tbs_peek_timesortedlist q = none) :
    tbs_dequeue_timesortedlist q now = (none, q) := by
  unfold tbs_dequeue_timesortedlist
  rw [hpk]

theorem dequeue_eq_expired (q : TbsSchedData) (now : Int) (skb : SkBuff)
    (hpk : tbs_peek_timesortedlist q = some skb)
    (hexp : skb.tstamp < now) :
    tbs_dequeue_timesortedlist q now =
      (none, reset_watchdog (timesortedlist_erase_head q skb true)) := by
  unfold tbs_dequeue_timesortedlist
  rw [hpk]
  simp [hexp]

theorem dequeue_eq_deadline (q : TbsSchedData) (now : Int) (skb : SkBuff)
    (hpk : tbs_peek_timesortedlist q = some skb)
    (hexp : ¬ skb.tstamp < now)
    (hdm : q.deadline_mode = true) :
    tbs_dequeue_timesortedlist q now =
      (some { skb with tstamp := now },
       reset_watchdog (timesortedlist_erase_head q skb false)) := by
  unfold tbs_dequeue_timesortedlist
  rw [hpk]
  simp [hexp, hdm]

theorem dequeue_eq_release (q : TbsSchedData) (now : Int) (skb : SkBuff)
    (hpk : tbs_peek_timesortedlist q = some skb)
    (hexp : ¬ skb.tstamp < now)
    (hdm : q.deadline_mode = false)
    (hwin : skb.tstamp - q.delta < now) :
    tbs_dequeue_timesortedlist q now =
      (some skb, reset_watchdog (timesortedlist_erase_head q skb false)) := by
  unfold tbs_dequeue_timesortedlist
  rw [hpk]
  simp [hexp, hdm, hwin]

theorem dequeue_eq_hold (q : TbsSchedData) (now : Int) (skb : SkBuff)
    (hpk : tbs_peek_timesortedlist q = some skb)
    (hexp : ¬ skb.tstamp < now)
    (hdm : q.deadline_mode = false)
    (hwin : ¬ skb.tstamp - q.delta < now) :
    tbs_dequeue_timesortedlist q now = (none, reset_watchdog q) := by
  unfold tbs_dequeue_timesortedlist
  rw [hpk]
  simp [hexp, hdm, hwin]

/-! ### The store invariant: sorted traversal, all txtimes at least `last` -/

theorem storeInv_enqueue (q : TbsSchedData) (nskb : SkBuff)
    (h : StoreInv q) (hle : q.last ≤ nskb.tstamp) :
    StoreInv (tbs_enqueue_timesortedlist q nskb) ∧
      q.last ≤ (tbs_enqueue_timesortedlist q nskb).last := by
  obtain ⟨hp, hall⟩ := h
  have hh : (tbs_enqueue_timesortedlist q nskb).head = q.head.insert nskb :=
    reset_watchdog_head _
  have hlast : (tbs_enqueue_timesortedlist q nskb).last = q.last :=
    reset_watchdog_last _
  refine ⟨⟨?_, ?_⟩, ?_⟩
  · rw [hh]
    exact SkbTree.pairwise_toList_insert _ _ hp
  · rw [hh, hlast]
    intro x hx
    rcases (SkbTree.mem_toList_insert _ _ _).mp hx with hx | rfl
    · exact hall x hx
    · exact hle
  · rw [hlast]

theorem head_toList_cons_of_peek (q : TbsSchedData) (skb : SkBuff)
    (hpk : tbs_peek_timesortedlist q = some skb) :
    ∃ ys, q.head.toList = skb :: ys := by
  have hhd : q.head.toList.head? = some skb := by
    rw [← SkbTree.first_eq_head]
    exact hpk
  cases hl : q.head.toList with
  | nil => rw [hl] at hhd; simp at hhd
  | cons y ys =>
    rw [hl] at hhd
    simp at hhd
    exact ⟨ys, by rw [hhd]⟩

theorem storeInv_dequeue (q : TbsSchedData) (now : Int) (h : StoreInv q) :
    StoreInv (tbs_dequeue_timesortedlist q now).2 ∧
      q.last ≤ (tbs_dequeue_timesortedlist q now).2.last := by
  obtain ⟨hp, hall⟩ := h
  cases hpk : tbs_peek_timesortedlist q with
  | none =>
    rw [dequeue_eq_empty q now hpk]
    exact ⟨⟨hp, hall⟩, le_refl _⟩
  | some skb =>
    obtain ⟨ys, hl⟩ := head_toList_cons_of_peek q skb hpk
    rw [hl, List.pairwise_cons] at hp
    obtain ⟨hskb_ys, hys⟩ := hp
    have hlast_skb : q.last ≤ skb.tstamp :=
      hall skb (by rw [hl]; exact List.mem_cons_self _ _)
    have hall_ys : ∀ x ∈ ys, q.last ≤ x.tstamp := fun x hx =>
      hall x (by rw [hl]; exact List.mem_cons_of_mem _ hx)
    have herase : q.head.eraseFirst.toList = ys := by
      rw [SkbTree.toList_eraseFirst, hl]
      rfl
    by_cases hexp : skb.tstamp < now
    · rw [dequeue_eq_expired q now skb hpk hexp]
      have hh : (reset_watchdog (timesortedlist_erase_head q skb true)).head =
          q.head.eraseFirst := by rw [reset_watchdog_head, erase_head_head]
      have hlast : (reset_watchdog (timesortedlist_erase_head q skb true)).last =
          q.last := by rw [reset_watchdog_last, erase_head_last]; simp
      refine ⟨⟨?_, ?_⟩, ?_⟩
      · rw [hh, herase]
        exact hys
      · rw [hh, herase, hlast]
        exact hall_ys
      · rw [hlast]
    · have hrel :
          StoreInv (reset_watchdog (timesortedlist_erase_head q skb false)) ∧
            q.last ≤ (reset_watchdog (timesortedlist_erase_head q skb false)).last := by
        have hh : (reset_watchdog (timesortedlist_erase_head q skb false)).head =
            q.head.eraseFirst := by rw [reset_watchdog_head, erase_head_head]
        have hlast : (reset_watchdog (timesortedlist_erase_head q skb false)).last =
            skb.tstamp := by rw [reset_watchdog_last, erase_head_last]; simp
        refine ⟨⟨?_, ?_⟩, ?_⟩
        · rw [hh, herase]
          exact hys
        · rw [hh, herase, hlast]
          exact hskb_ys
        · rw [hlast]
          exact hlast_skb
      by_cases hdm : q.deadline_mode = true
      · rw [dequeue_eq_deadline q now skb hpk hexp hdm]
        exact hrel
      · have hdm' : q.deadline_mode = false := by
          cases hq : q.deadline_mode
          · rfl
          · exact absurd hq hdm
        by_cases hwin : skb.tstamp - q.delta < now
        · rw [dequeue_eq_release q now skb hpk hexp hdm' hwin]
          exact hrel
        · rw [dequeue_eq_hold q now skb hpk hexp hdm' hwin]
          have hh : (reset_watchdog q).head = q.head := reset_watchdog_head _
          have hlast : (reset_watchdog q).last = q.last := reset_watchdog_last _
          refine ⟨⟨?_, ?_⟩, ?_⟩
          · rw [hh, hl, List.pairwise_cons]
            exact ⟨hskb_ys, hys⟩
          · rw [hh, hlast]
            exact hall
          · rw [hlast]

theorem storeInv_runOp (q : TbsSchedData) (op : TbsOp) (h : StoreInv q) :
    StoreInv (runOp q op) ∧ q.last ≤ (runOp q op).last := by
  cases op with
  | enq now nskb =>
    show StoreInv (if is_packet_valid q now nskb then tbs_enqueue_timesortedlist q nskb
        else q) ∧
      q.last ≤ (if is_packet_valid q now nskb then tbs_enqueue_timesortedlist q nskb
        else q).last
    by_cases hv : is_packet_valid q now nskb = true
    · rw [if_pos hv]
      exact storeInv_enqueue q nskb h (is_packet_valid_le q now nskb hv).2
    · rw [if_neg hv]
      exact ⟨h, le_refl _⟩
  | poll now => exact storeInv_dequeue q now h

theorem storeInv_runOps (q : TbsSchedData) (ops : List TbsOp) (h : StoreInv q) :
    StoreInv (runOps q ops) ∧ q.last ≤ (runOps q ops).last := by
  induction ops generalizing q with
  | nil => exact ⟨h, le_refl _⟩
  | cons op ops ih =>
    obtain ⟨h1, h2⟩ := storeInv_runOp q op h
    obtain ⟨h3, h4⟩ := ih (runOp q op) h1
    exact ⟨h3, le_trans h2 h4⟩

theorem storeInv_of_nil_head (q : TbsSchedData) (h : q.head = SkbTree.nil) :
    StoreInv q := by
  constructor <;> rw [h] <;> simp [SkbTree.toList]

/-! ### The watchdog invariant: the scheduled wake tracks the head -/

@[simp]
theorem reset_watchdog_deadline_mode (q : TbsSchedData) :
    (reset_watchdog q).deadline_mode = q.deadline_mode := by
  cases h : tbs_peek_timesortedlist q <;> simp [reset_watchdog, h]

@[simp]
theorem erase_head_watchdog (q : TbsSchedData) (skb : SkBuff) (drop : Bool) :
    (timesortedlist_erase_head q skb drop).watchdog = q.watchdog := by
  cases drop <;> rfl

@[simp]
theorem erase_head_delta (q : TbsSchedData) (skb : SkBuff) (drop : Bool) :
    (timesortedlist_erase_head q skb drop).delta = q.delta := by
  cases drop <;> rfl

@[simp]
theorem erase_head_deadline_mode (q : TbsSchedData) (skb : SkBuff) (drop : Bool) :
    (timesortedlist_erase_head q skb drop).deadline_mode = q.deadline_mode := by
  cases drop <;> rfl

theorem peek_eq_of_head_nil (q : TbsSchedData) (h : q.head = SkbTree.nil) :
    tbs_peek_timesortedlist q = none := by
  unfold tbs_peek_timesortedlist
  rw [h]
  rfl

theorem reset_watchdog_of_peek_none (q : TbsSchedData)
    (h : tbs_peek_timesortedlist q = none) : reset_watchdog q = q := by
  unfold reset_watchdog
  rw [h]

theorem reset_watchdog_eq_self (q : TbsSchedData) (skb : SkBuff)
    (hpk : tbs_peek_timesortedlist q = some skb)
    (hwd : q.watchdog = some (skb.tstamp - q.delta)) :
    reset_watchdog q = q := by
  unfold reset_watchdog
  rw [hpk]
  show { q with watchdog := some (skb.tstamp - q.delta) } = q
  rw [← hwd]

theorem watchdogInv_reset (q : TbsSchedData) : WatchdogInv (reset_watchdog q) := by
  intro skb hpk
  have hpq : tbs_peek_timesortedlist q = some skb := by
    unfold tbs_peek_timesortedlist at hpk ⊢
    rw [reset_watchdog_head] at hpk
    exact hpk
  rw [reset_watchdog_delta]
  unfold reset_watchdog
  rw [hpq]

theorem dequeue_snd_shape (q : TbsSchedData) (now : Int) :
    (tbs_dequeue_timesortedlist q now).2 = q ∨
      ∃ q', (tbs_dequeue_timesortedlist q now).2 = reset_watchdog q' := by
  cases hpk : tbs_peek_timesortedlist q with
  | none => left; rw [dequeue_eq_empty q now hpk]
  | some skb =>
    by_cases hexp : skb.tstamp < now
    · right
      exact ⟨timesortedlist_erase_head q skb true,
        by rw [dequeue_eq_expired q now skb hpk hexp]⟩
    · by_cases hdm : q.deadline_mode = true
      · right
        exact ⟨timesortedlist_erase_head q skb false,
          by rw [dequeue_eq_deadline q now skb hpk hexp hdm]⟩
      · have hdm' : q.deadline_mode = false := by
          cases hq : q.deadline_mode
          · rfl
          · exact absurd hq hdm
        by_cases hwin : skb.tstamp - q.delta < now
        · right
          exact ⟨timesortedlist_erase_head q skb false,
            by rw [dequeue_eq_release q now skb hpk hexp hdm' hwin]⟩
        · right
          exact ⟨q, by rw [dequeue_eq_hold q now skb hpk hexp hdm' hwin]⟩

theorem watchdogInv_runOp (q : TbsSchedData) (op : TbsOp) (h : WatchdogInv q) :
    WatchdogInv (runOp q op) := by
  cases op with
  | enq now nskb =>
    show WatchdogInv
      (if is_packet_valid q now nskb then tbs_enqueue_timesortedlist q nskb else q)
    by_cases hv : is_packet_valid q now nskb = true
    · rw [if_pos hv]
      exact watchdogInv_reset _
    · rw [if_neg hv]
      exact h
  | poll now =>
    show WatchdogInv (tbs_dequeue_timesortedlist q now).2
    rcases dequeue_snd_shape q now with heq | ⟨q', heq⟩
    · rw [heq]
      exact h
    · rw [heq]
      exact watchdogInv_reset _

theorem watchdogInv_runOps (q : TbsSchedData) (ops : List TbsOp) (h : WatchdogInv q) :
    WatchdogInv (runOps q ops) := by
  induction ops generalizing q with
  | nil => exact h
  | cons op ops ih => exact ih (runOp q op) (watchdogInv_runOp q op h)

theorem watchdogInv_of_nil_head (q : TbsSchedData) (h : q.head = SkbTree.nil) :
    WatchdogInv q := by
  intro skb hpk
  rw [peek_eq_of_head_nil q h] at hpk
  exact absurd hpk (by simp)

/-! ### Claim theorems -/

/-- C1 (counterexample): in Deadline mode, a poll at `now = 50` of a
non-expired head with release_time 100 returns the packet, but sets
`last_released_time` to 100 — the original deadline — not to `now()` = 50
as the claim states. -/
theorem C1_cex :
    (tbs_dequeue_timesortedlist (runOp qD (TbsOp.enq 0 pD)) 50).1 =
      some { pD with tstamp := 50 } ∧
    ¬ pD.tstamp < 50 ∧
    (tbs_dequeue_timesortedlist (runOp qD (TbsOp.enq 0 pD)) 50).2.last = 100 ∧
    (100 : Int) ≠ 50 := by decide

/-- C1 (amended): in Deadline mode, for every poll whose head is not
expired, the head is removed and returned with `release_time` overwritten
to `now()`, and `last_released_time` is set to the packet's original
`release_time` (the deadline), not to `now()`. -/
theorem C1_amended (q : TbsSchedData) (now : Int) (skb : SkBuff)
    (hdm : q.deadline_mode = true)
    (hpk : tbs_peek_timesortedlist q = some skb)
    (hexp : ¬ skb.tstamp < now) :
    (tbs_dequeue_timesortedlist q now).1 = some { skb with tstamp := now } ∧
    (tbs_dequeue_timesortedlist q now).2.last = skb.tstamp ∧
    (tbs_dequeue_timesortedlist q now).2.head = q.head.eraseFirst := by
  rw [dequeue_eq_deadline q now skb hpk hexp hdm]
  refine ⟨rfl, ?_, ?_⟩
  · show (reset_watchdog (timesortedlist_erase_head q skb false)).last = skb.tstamp
    rw [reset_watchdog_last, erase_head_last]
    simp
  · show (reset_watchdog (timesortedlist_erase_head q skb false)).head =
      q.head.eraseFirst
    rw [reset_watchdog_head, erase_head_head]

/-- Witness for `C1_amended` at a concrete deadline-mode state. -/
theorem C1_amended_witness :
    (tbs_dequeue_timesortedlist (runOp qD (TbsOp.enq 0 pD)) 50).1 =
      some { pD with tstamp := 50 } ∧
    (tbs_dequeue_timesortedlist (runOp qD (TbsOp.enq 0 pD)) 50).2.last =
      pD.tstamp ∧
    (tbs_dequeue_timesortedlist (runOp qD (TbsOp.enq 0 pD)) 50).2.head =
      (runOp qD (TbsOp.enq 0 pD)).head.eraseFirst :=
  C1_amended (runOp qD (TbsOp.enq 0 pD)) 50 pD (by decide) (by decide) (by decide)

/-- C4 (confirmed): in Windowed mode, for every poll in a reachable state
whose head is not expired and with `now()` strictly before
`head.release_time - delta`, the poll returns `None` and the entire engine
state — the store and the scheduled wake included — is exactly unchanged.
(The code re-runs `qdisc_watchdog_schedule_ns`, but with the identical
deadline the head already has, so the outstanding wake is left exactly as
it was.) -/
theorem C4_windowed_hold (q0 : TbsSchedData) (ops : List TbsOp) (now : Int)
    (skb : SkBuff) (h0 : q0.head = SkbTree.nil)
    (hpk : tbs_peek_timesortedlist (runOps q0 ops) = some skb)
    (hdm : (runOps q0 ops).deadline_mode = false)
    (hexp : ¬ skb.tstamp < now)
    (hhold : now < skb.tstamp - (runOps q0 ops).delta) :
    tbs_dequeue_timesortedlist (runOps q0 ops) now = (none, runOps q0 ops) := by
  have hwin : ¬ skb.tstamp - (runOps q0 ops).delta < now := by omega
  rw [dequeue_eq_hold (runOps q0 ops) now skb hpk hexp hdm hwin]
  have hinv : WatchdogInv (runOps q0 ops) :=
    watchdogInv_runOps q0 ops (watchdogInv_of_nil_head q0 h0)
  rw [reset_watchdog_eq_self (runOps q0 ops) skb hpk (hinv skb hpk)]

/-- Witness for `C4_windowed_hold`: one packet at 100 ns, delta 10 ns,
polled at 85 ns. -/
theorem C4_windowed_hold_witness :
    tbs_dequeue_timesortedlist (runOps qW [TbsOp.enq 0 pW1]) 85 =
      (none, runOps qW [TbsOp.enq 0 pW1]) :=
  C4_windowed_hold qW [TbsOp.enq 0 pW1] 85 pW1 (by decide) (by decide)
    (by decide) (by decide) (by decide)

/-- C7 (confirmed): in Deadline mode, every packet a poll releases carries
`release_time` equal to the `now()` read during that poll, not the
original deadline. -/
theorem C7_deadline_stamp (q : TbsSchedData) (now : Int) (skb' : SkBuff)
    (hdm : q.deadline_mode = true)
    (hrel : (tbs_dequeue_timesortedlist q now).1 = some skb') :
    skb'.tstamp = now := by
  cases hpk : tbs_peek_timesortedlist q with
  | none =>
    rw [dequeue_eq_empty q now hpk] at hrel
    simp at hrel
  | some skb =>
    by_cases hexp : skb.tstamp < now
    · rw [dequeue_eq_expired q now skb hpk hexp] at hrel
      simp at hrel
    · rw [dequeue_eq_deadline q now skb hpk hexp hdm] at hrel
      simp at hrel
      rw [← hrel]

/-- Witness for `C7_deadline_stamp`: the packet released at 50 ns carries
tstamp 50. -/
theorem C7_deadline_stamp_witness :
    ({ pD with tstamp := 50 } : SkBuff).tstamp = 50 :=
  C7_deadline_stamp (runOp qD (TbsOp.enq 0 pD)) 50 { pD with tstamp := 50 }
    (by decide) (by decide)

/-- C9 (confirmed): starting from a freshly configured engine (empty
store), `last_released_time` is monotonically non-decreasing along any
sequence of admit/poll operations: its value after any extension of the
sequence is at least its value before. -/
theorem C9_last_monotone (q0 : TbsSchedData) (h0 : q0.head = SkbTree.nil)
    (ops more : List TbsOp) :
    (runOps q0 ops).last ≤ (runOps q0 (ops ++ more)).last := by
  have h1 := storeInv_runOps q0 ops (storeInv_of_nil_head q0 h0)
  have h2 := storeInv_runOps (runOps q0 ops) more h1.1
  have h3 : runOps q0 (ops ++ more) = runOps (runOps q0 ops) more := by
    unfold runOps
    rw [List.foldl_append]
  rw [h3]
  exact h2.2

/-- Witness for `C9_last_monotone`: one admit then one releasing poll. -/
theorem C9_last_monotone_witness :
    (runOps qW [TbsOp.enq 0 pW1]).last ≤
      (runOps qW ([TbsOp.enq 0 pW1] ++ [TbsOp.poll 95])).last :=
  C9_last_monotone qW (by decide) [TbsOp.enq 0 pW1] [TbsOp.poll 95]

/-- C2 (counterexample): two packets with equal release_time 100 are both
accepted, but the first non-None poll returns the second-admitted packet
`pW2`, not the first-admitted `pW1`: equal keys are inserted to the left,
so ties are released in reverse insertion order. -/
theorem C2_cex :
    is_packet_valid qW 0 pW1 = true ∧
    is_packet_valid (runOp qW (TbsOp.enq 0 pW1)) 0 pW2 = true ∧
    pW1.tstamp = pW2.tstamp ∧
    (tbs_dequeue_timesortedlist
      (runOps qW [TbsOp.enq 0 pW1, TbsOp.enq 0 pW2]) 95).1 = some pW2 ∧
    pW2 ≠ pW1 := by decide

/-- C2 (amended): two packets admitted with equal release_time are both
accepted, and successive non-None poll results return them in reverse
insertion order: the later-admitted packet is released first, because the
insertion loop sends equal keys to the left of the existing node. -/
theorem C2_amended (q : TbsSchedData) (p1 p2 : SkBuff) (now0 now1 now2 : Int)
    (hnil : q.head = SkbTree.nil) (hdm : q.deadline_mode = false)
    (hv1 : is_packet_valid q now0 p1 = true)
    (hv2 : is_packet_valid (runOp q (TbsOp.enq now0 p1)) now0 p2 = true)
    (heq : p1.tstamp = p2.tstamp)
    (h1 : ¬ p2.tstamp < now1) (h2 : p2.tstamp - q.delta < now1)
    (h3 : ¬ p1.tstamp < now2) (h4 : p1.tstamp - q.delta < now2) :
    (tbs_dequeue_timesortedlist
      (runOps q [TbsOp.enq now0 p1, TbsOp.enq now0 p2]) now1).1 = some p2 ∧
    (tbs_dequeue_timesortedlist
      (tbs_dequeue_timesortedlist
        (runOps q [TbsOp.enq now0 p1, TbsOp.enq now0 p2]) now1).2 now2).1 =
      some p1 := by
  have hs1 : runOp q (TbsOp.enq now0 p1) = tbs_enqueue_timesortedlist q p1 := by
    show (if is_packet_valid q now0 p1 then tbs_enqueue_timesortedlist q p1 else q) =
      tbs_enqueue_timesortedlist q p1
    rw [if_pos hv1]
  rw [hs1] at hv2
  have hs : runOps q [TbsOp.enq now0 p1, TbsOp.enq now0 p2] =
      tbs_enqueue_timesortedlist (tbs_enqueue_timesortedlist q p1) p2 := by
    show runOp (runOp q (TbsOp.enq now0 p1)) (TbsOp.enq now0 p2) =
      tbs_enqueue_timesortedlist (tbs_enqueue_timesortedlist q p1) p2
    rw [hs1]
    show (if is_packet_valid (tbs_enqueue_timesortedlist q p1) now0 p2
        then tbs_enqueue_timesortedlist (tbs_enqueue_timesortedlist q p1) p2
        else tbs_enqueue_timesortedlist q p1) =
      tbs_enqueue_timesortedlist (tbs_enqueue_timesortedlist q p1) p2
    rw [if_pos hv2]
  have edm : ∀ (s : TbsSchedData) (nskb : SkBuff),
      (tbs_enqueue_timesortedlist s nskb).deadline_mode = s.deadline_mode :=
    fun s nskb => reset_watchdog_deadline_mode _
  have edl : ∀ (s : TbsSchedData) (nskb : SkBuff),
      (tbs_enqueue_timesortedlist s nskb).delta = s.delta :=
    fun s nskb => reset_watchdog_delta _
  have hh1 : (tbs_enqueue_timesortedlist q p1).head =
      SkbTree.node SkbTree.nil p1 SkbTree.nil := by
    have e1 : (tbs_enqueue_timesortedlist q p1).head = q.head.insert p1 :=
      reset_watchdog_head _
    rw [e1, hnil]
    rfl
  have hh2 : (tbs_enqueue_timesortedlist (tbs_enqueue_timesortedlist q p1) p2).head =
      SkbTree.node (SkbTree.node SkbTree.nil p2 SkbTree.nil) p1 SkbTree.nil := by
    have e2 : (tbs_enqueue_timesortedlist (tbs_enqueue_timesortedlist q p1) p2).head =
        (tbs_enqueue_timesortedlist q p1).head.insert p2 := reset_watchdog_head _
    rw [e2, hh1]
    show (if p1.tstamp < p2.tstamp
        then SkbTree.node SkbTree.nil p1 (SkbTree.nil.insert p2)
        else SkbTree.node (SkbTree.nil.insert p2) p1 SkbTree.nil) =
      SkbTree.node (SkbTree.node SkbTree.nil p2 SkbTree.nil) p1 SkbTree.nil
    rw [if_neg (by rw [heq]; exact lt_irrefl p2.tstamp)]
    rfl
  have hpk2 : tbs_peek_timesortedlist
      (tbs_enqueue_timesortedlist (tbs_enqueue_timesortedlist q p1) p2) =
      some p2 := by
    unfold tbs_peek_timesortedlist
    rw [hh2]
    rfl
  have hdm2 : (tbs_enqueue_timesortedlist
      (tbs_enqueue_timesortedlist q p1) p2).deadline_mode = false := by
    rw [edm, edm]
    exact hdm
  have hdl2 : p2.tstamp -
      (tbs_enqueue_timesortedlist (tbs_enqueue_timesortedlist q p1) p2).delta <
      now1 := by
    rw [edl, edl]
    exact h2
  have hfirst := dequeue_eq_release _ now1 p2 hpk2 h1 hdm2 hdl2
  have hh3 : (reset_watchdog (timesortedlist_erase_head
      (tbs_enqueue_timesortedlist (tbs_enqueue_timesortedlist q p1) p2)
      p2 false)).head = SkbTree.node SkbTree.nil p1 SkbTree.nil := by
    rw [reset_watchdog_head, erase_head_head, hh2]
    rfl
  have hpk3 : tbs_peek_timesortedlist (reset_watchdog (timesortedlist_erase_head
      (tbs_enqueue_timesortedlist (tbs_enqueue_timesortedlist q p1) p2)
      p2 false)) = some p1 := by
    unfold tbs_peek_timesortedlist
    rw [hh3]
    rfl
  have hdm3 : (reset_watchdog (timesortedlist_erase_head
      (tbs_enqueue_timesortedlist (tbs_enqueue_timesortedlist q p1) p2)
      p2 false)).deadline_mode = false := by
    rw [reset_watchdog_deadline_mode, erase_head_deadline_mode, edm, edm]
    exact hdm
  have hdl3 : p1.tstamp - (reset_watchdog (timesortedlist_erase_head
      (tbs_enqueue_timesortedlist (tbs_enqueue_timesortedlist q p1) p2)
      p2 false)).delta < now2 := by
    rw [reset_watchdog_delta, erase_head_delta, edl, edl]
    exact h4
  have hsecond := dequeue_eq_release _ now2 p1 hpk3 h3 hdm3 hdl3
  constructor
  · rw [hs, hfirst]
  · rw [hs, hfirst]
    show (tbs_dequeue_timesortedlist (reset_watchdog (timesortedlist_erase_head
      (tbs_enqueue_timesortedlist (tbs_enqueue_timesortedlist q p1) p2)
      p2 false)) now2).1 = some p1
    rw [hsecond]

/-- Witness for `C2_amended`: the concrete two-packet tie at 100 ns. -/
theorem C2_amended_witness :
    (tbs_dequeue_timesortedlist
      (runOps qW [TbsOp.enq 0 pW1, TbsOp.enq 0 pW2]) 95).1 = some pW2 ∧
    (tbs_dequeue_timesortedlist
      (tbs_dequeue_timesortedlist
        (runOps qW [TbsOp.enq 0 pW1, TbsOp.enq 0 pW2]) 95).2 96).1 = some pW1 :=
  C2_amended qW pW1 pW2 0 95 96 (by decide) (by decide) (by decide) (by decide)
    (by decide) (by decide) (by decide) (by decide) (by decide)

/-- C3 (code_bug evaluation): Windowed mode, delta 10 ns, head release_time
100 ns, polled exactly at the window-open boundary now = 90 =
release_time - delta.  The code's `ktime_after(now, next)` test is strict,
so the poll returns None and holds the packet, although the claim — and
the code's own comment, which states the dequeue range as the closed
interval [txtime - delta, txtime] — require the packet to be released. -/
theorem C3_boundary :
    ¬ pW1.tstamp < 90 ∧
    (90 : Int) = pW1.tstamp - (runOp qW (TbsOp.enq 0 pW1)).delta ∧
    (tbs_dequeue_timesortedlist (runOp qW (TbsOp.enq 0 pW1)) 90).1 = none ∧
    (tbs_dequeue_timesortedlist (runOp qW (TbsOp.enq 0 pW1)) 90).2.head =
      (runOp qW (TbsOp.enq 0 pW1)).head := by decide

/-- C5 (counterexample): after admitting one packet (watchdog armed for
90 ns) and polling at 95 ns, the store is empty yet the watchdog still
holds the stale wake at 90 ns — it is neither cancelled nor cleared,
contradicting the claim that no wake remains outstanding. -/
theorem C5_cex :
    (tbs_dequeue_timesortedlist (runOp qW (TbsOp.enq 0 pW1)) 95).2.head =
      SkbTree.nil ∧
    (tbs_dequeue_timesortedlist (runOp qW (TbsOp.enq 0 pW1)) 95).2.watchdog =
      some 90 ∧
    (tbs_dequeue_timesortedlist (runOp qW (TbsOp.enq 0 pW1)) 95).2.watchdog ≠
      none := by decide

/-- C5 (amended): a poll that leaves the store empty leaves the
outstanding timer exactly as it was — `reset_watchdog` returns early on an
empty store, neither cancelling nor rescheduling; the watchdog is
cancelled only by `tbs_reset` and `tbs_destroy`. -/
theorem C5_amended (q : TbsSchedData) (now : Int)
    (hempty : (tbs_dequeue_timesortedlist q now).2.head = SkbTree.nil) :
    (tbs_dequeue_timesortedlist q now).2.watchdog = q.watchdog ∧
    (tbs_reset q).watchdog = none ∧ (tbs_destroy q).watchdog = none := by
  refine ⟨?_, rfl, rfl⟩
  cases hpk : tbs_peek_timesortedlist q with
  | none =>
    rw [dequeue_eq_empty q now hpk]
  | some skb =>
    by_cases hexp : skb.tstamp < now
    · rw [dequeue_eq_expired q now skb hpk hexp] at hempty ⊢
      have hnl : (timesortedlist_erase_head q skb true).head = SkbTree.nil := by
        rw [← reset_watchdog_head]
        exact hempty
      show (reset_watchdog (timesortedlist_erase_head q skb true)).watchdog =
        q.watchdog
      rw [reset_watchdog_of_peek_none _ (peek_eq_of_head_nil _ hnl),
        erase_head_watchdog]
    · by_cases hdm : q.deadline_mode = true
      · rw [dequeue_eq_deadline q now skb hpk hexp hdm] at hempty ⊢
        have hnl : (timesortedlist_erase_head q skb false).head = SkbTree.nil := by
          rw [← reset_watchdog_head]
          exact hempty
        show (reset_watchdog (timesortedlist_erase_head q skb false)).watchdog =
          q.watchdog
        rw [reset_watchdog_of_peek_none _ (peek_eq_of_head_nil _ hnl),
          erase_head_watchdog]
      · have hdm' : q.deadline_mode = false := by
          cases hq : q.deadline_mode
          · rfl
          · exact absurd hq hdm
        by_cases hwin : skb.tstamp - q.delta < now
        · rw [dequeue_eq_release q now skb hpk hexp hdm' hwin] at hempty ⊢
          have hnl : (timesortedlist_erase_head q skb false).head = SkbTree.nil := by
            rw [← reset_watchdog_head]
            exact hempty
          show (reset_watchdog (timesortedlist_erase_head q skb false)).watchdog =
            q.watchdog
          rw [reset_watchdog_of_peek_none _ (peek_eq_of_head_nil _ hnl),
            erase_head_watchdog]
        · rw [dequeue_eq_hold q now skb hpk hexp hdm' hwin] at hempty
          have hqnil : q.head = SkbTree.nil := by
            rw [← reset_watchdog_head]
            exact hempty
          rw [peek_eq_of_head_nil q hqnil] at hpk
          simp at hpk

/-- Witness for `C5_amended`: the single-packet poll that empties the
store at 95 ns. -/
theorem C5_amended_witness :
    (tbs_dequeue_timesortedlist (runOp qW (TbsOp.enq 0 pW1)) 95).2.watchdog =
      (runOp qW (TbsOp.enq 0 pW1)).watchdog ∧
    (tbs_reset (runOp qW (TbsOp.enq 0 pW1))).watchdog = none ∧
    (tbs_destroy (runOp qW (TbsOp.enq 0 pW1))).watchdog = none :=
  C5_amended (runOp qW (TbsOp.enq 0 pW1)) 95 (by decide)

/-- C6 (counterexample): `tbs_init` on a zeroed qdisc with the in-range
but unhandled clockid 2 (`CLOCK_PROCESS_CPUTIME_ID`) returns an error,
yet delta, clockid and the sorting flag have already been overwritten —
a partial configuration survives the failed configure. -/
theorem C6_cex :
    (tbs_init qZero qoptBad).1 ≠ 0 ∧
    (tbs_init qZero qoptBad).2.delta ≠ qZero.delta ∧
    (tbs_init qZero qoptBad).2.clockid ≠ qZero.clockid ∧
    (tbs_init qZero qoptBad).2.sorting ≠ qZero.sorting := by decide

/-- C6 (amended): a negative clockid fails with -ENOTSUPP and a clockid at
or above MAX_CLOCKS fails with -EINVAL, in both cases before anything is
saved (the state is exactly unchanged); but an in-range clockid that the
clock switch does not handle fails with -ENOTSUPP only after delta,
clockid, sorting and deadline_mode have been saved, while the dispatch
pointers and the watchdog stay untouched. -/
theorem C6_amended (q : TbsSchedData) (qopt : TcTbsQopt) :
    ((qopt.clockid < 0 ∨ MAX_CLOCKS ≤ qopt.clockid) →
      (tbs_init q qopt).1 < 0 ∧ (tbs_init q qopt).2 = q) ∧
    (0 ≤ qopt.clockid → qopt.clockid < MAX_CLOCKS → 0 ≤ qopt.delta →
      qopt.clockid ≠ CLOCK_REALTIME → qopt.clockid ≠ CLOCK_MONOTONIC →
      qopt.clockid ≠ CLOCK_BOOTTIME → qopt.clockid ≠ CLOCK_TAI →
      (tbs_init q qopt).1 = -ENOTSUPP ∧
      (tbs_init q qopt).2 =
        { q with
            delta := qopt.delta, clockid := qopt.clockid,
            sorting := qopt.sorting_on,
            deadline_mode := qopt.deadline_mode_on }) := by
  constructor
  · intro h
    have hval : validate_input_params qopt < 0 := by
      unfold validate_input_params
      rcases h with h | h
      · rw [if_neg (by simp only [MAX_CLOCKS]; omega), if_pos h]
        norm_num [ENOTSUPP]
      · rw [if_pos h]
        norm_num [EINVAL]
    constructor
    · show (tbs_init q qopt).1 < 0
      unfold tbs_init
      rw [if_pos hval]
      exact hval
    · unfold tbs_init
      rw [if_pos hval]
  · intro h0 h1 h2 h3 h4 h5 h6
    have hval : validate_input_params qopt = 0 := by
      have hA : ¬ MAX_CLOCKS ≤ qopt.clockid := by
        simp only [MAX_CLOCKS] at h1 ⊢
        omega
      have hB : ¬ qopt.clockid < 0 := by omega
      have hC : ¬ qopt.delta < 0 := by omega
      unfold validate_input_params
      rw [if_neg hA, if_neg hB, if_neg hC]
    have hnv : ¬ validate_input_params qopt < 0 := by
      rw [hval]
      omega
    have hclk : ¬ (qopt.clockid = CLOCK_REALTIME ∨ qopt.clockid = CLOCK_MONOTONIC ∨
        qopt.clockid = CLOCK_BOOTTIME ∨ qopt.clockid = CLOCK_TAI) := by
      push_neg
      exact ⟨h3, h4, h5, h6⟩
    unfold tbs_init
    rw [if_neg hnv, if_neg hclk]
    exact ⟨rfl, rfl⟩

/-- Witness for `C6_amended`: the in-range unhandled clockid 2 on the
zeroed state. -/
theorem C6_amended_witness :
    (tbs_init qZero qoptBad).1 = -ENOTSUPP ∧
    (tbs_init qZero qoptBad).2 =
      { qZero with
          delta := qoptBad.delta, clockid := qoptBad.clockid,
          sorting := qoptBad.sorting_on,
          deadline_mode := qoptBad.deadline_mode_on } :=
  (C6_amended qZero qoptBad).2 (by decide) (by decide) (by decide) (by decide)
    (by decide) (by decide) (by decide)

/-- C8 (counterexample): a packet that passes the opt-in, clock and mode
checks and whose release_time equals `now()` (both 5 ns) is nonetheless
rejected, because `last_released_time` is 10 ns — equality with `now()`
alone does not imply acceptance, contrary to the claim's final clause. -/
theorem C8_cex :
    pC8.sk = some sockW ∧
    sockW.sock_txtime = true ∧
    sockW.sk_clockid = qC8.clockid ∧
    sockW.txtime_deadline = qC8.deadline_mode ∧
    pC8.tstamp = (5 : Int) ∧
    is_packet_valid qC8 5 pC8 = false := by decide

/-- C8 (amended): a packet that passes the opt-in, clock-domain and mode
checks is rejected iff its release_time is strictly before `now()` or
strictly before `last_released_time`; both temporal checks are strict, so
equality with either bound does not by itself cause rejection, and a
packet whose release_time is at least both bounds is accepted. -/
theorem C8_amended (q : TbsSchedData) (now : Int) (nskb : SkBuff) (sk : Sock)
    (hsk : nskb.sk = some sk) (hopt : sk.sock_txtime = true)
    (hck : sk.sk_clockid = q.clockid) (hmd : sk.txtime_deadline = q.deadline_mode) :
    (is_packet_valid q now nskb = false ↔
      nskb.tstamp < now ∨ nskb.tstamp < q.last) ∧
    (now ≤ nskb.tstamp → q.last ≤ nskb.tstamp →
      is_packet_valid q now nskb = true) := by
  have key : is_packet_valid q now nskb =
      (if nskb.tstamp < now || nskb.tstamp < q.last then false else true) := by
    simp [is_packet_valid, hsk, hopt, hck, hmd]
  rw [key]
  constructor
  · constructor
    · intro h
      by_cases hc : (nskb.tstamp < now || nskb.tstamp < q.last) = true
      · simpa using hc
      · rw [if_neg hc] at h
        simp at h
    · intro h
      rw [if_pos (by simpa using h)]
  · intro hnow hlast
    rw [if_neg (by simp; omega)]

/-- Witness for `C8_amended` on the fresh windowed engine and packet
`pW1`. -/
theorem C8_amended_witness :
    (is_packet_valid qW 0 pW1 = false ↔
      pW1.tstamp < 0 ∨ pW1.tstamp < qW.last) ∧
    (0 ≤ pW1.tstamp → qW.last ≤ pW1.tstamp →
      is_packet_valid qW 0 pW1 = true) :=
  C8_amended qW 0 pW1 sockW (by decide) (by decide) (by decide) (by decide)

/-- C10 (confirmed): with sorting off and otherwise valid parameters,
`tbs_init` succeeds (returns 0) yet leaves the enqueue/dequeue/peek
dispatch pointers unset (NULL, as on the freshly allocated qdisc): a
subsequent dequeue or peek, and an enqueue of any packet the validator
accepts, calls through an unset pointer — in the embedding the dispatch
wrappers return `none`, no defined result. -/
theorem C10_sorting_off (q : TbsSchedData) (qopt : TcTbsQopt) (now : Int)
    (he : q.enqueue_set = false) (hd : q.dequeue_set = false)
    (hp : q.peek_set = false) (hsort : qopt.sorting_on = false)
    (hdelta : 0 ≤ qopt.delta)
    (hck : qopt.clockid = CLOCK_REALTIME ∨ qopt.clockid = CLOCK_MONOTONIC ∨
      qopt.clockid = CLOCK_BOOTTIME ∨ qopt.clockid = CLOCK_TAI) :
    (tbs_init q qopt).1 = 0 ∧
    (tbs_init q qopt).2.enqueue_set = false ∧
    (tbs_init q qopt).2.dequeue_set = false ∧
    (tbs_init q qopt).2.peek_set = false ∧
    tbs_dequeue (tbs_init q qopt).2 now = none ∧
    tbs_peek (tbs_init q qopt).2 = none ∧
    (∀ nskb : SkBuff, is_packet_valid (tbs_init q qopt).2 now nskb = true →
      tbs_enqueue (tbs_init q qopt).2 now nskb = none) := by
  have hval : validate_input_params qopt = 0 := by
    have hc0 : 0 ≤ qopt.clockid := by
      rcases hck with h | h | h | h <;> rw [h] <;>
        norm_num [CLOCK_REALTIME, CLOCK_MONOTONIC, CLOCK_BOOTTIME, CLOCK_TAI]
    have hc1 : qopt.clockid < 16 := by
      rcases hck with h | h | h | h <;> rw [h] <;>
        norm_num [CLOCK_REALTIME, CLOCK_MONOTONIC, CLOCK_BOOTTIME, CLOCK_TAI]
    have hA : ¬ MAX_CLOCKS ≤ qopt.clockid := by
      simp only [MAX_CLOCKS]
      omega
    have hB : ¬ qopt.clockid < 0 := by omega
    have hC : ¬ qopt.delta < 0 := by omega
    unfold validate_input_params
    rw [if_neg hA, if_neg hB, if_neg hC]
  have hnv : ¬ validate_input_params qopt < 0 := by
    rw [hval]
    omega
  have hsets : (tbs_init q qopt).2.enqueue_set = false ∧
      (tbs_init q qopt).2.dequeue_set = false ∧
      (tbs_init q qopt).2.peek_set = false := by
    unfold tbs_init
    rw [if_neg hnv, if_pos hck]
    unfold setup_queueing_mode
    simp [hsort, he, hd, hp]
  refine ⟨?_, hsets.1, hsets.2.1, hsets.2.2, ?_, ?_, ?_⟩
  · unfold tbs_init
    rw [if_neg hnv, if_pos hck]
  · unfold tbs_dequeue
    rw [if_neg]
    simp [hsets.2.1]
  · unfold tbs_peek
    rw [if_neg]
    simp [hsets.2.2]
  · intro nskb hvd
    unfold tbs_enqueue
    rw [hvd]
    show (if !true then some (false, (tbs_init q qopt).2)
      else if (tbs_init q qopt).2.enqueue_set then
        some (true, tbs_enqueue_timesortedlist (tbs_init q qopt).2 nskb)
      else none) = none
    rw [if_neg (by simp), if_neg]
    simp [hsets.1]

/-- Witness for `C10_sorting_off`: sorting off on the zeroed qdisc with
valid delta and clockid; all dispatches are undefined afterwards. -/
theorem C10_sorting_off_witness :
    (tbs_init qZero qoptOff).1 = 0 ∧
    tbs_dequeue (tbs_init qZero qoptOff).2 0 = none ∧
    tbs_peek (tbs_init qZero qoptOff).2 = none ∧
    tbs_enqueue (tbs_init qZero qoptOff).2 0 pW1 = none := by
  have h := C10_sorting_off qZero qoptOff 0 (by decide) (by decide) (by decide)
    (by decide) (by decide) (by decide)
  exact ⟨h.1, h.2.2.2.2.1, h.2.2.2.2.2.1, h.2.2.2.2.2.2 pW1 (by decide)⟩
